import Mathlib

/-!
Shallow embedding of the theme-derived daylight visualization core of
`timezones.py` (waybar-timezones).  Python strings are modelled as lists of
Unicode code points (`List Nat`); exact rational arithmetic (`ℚ`) models the
color-channel computations, and `ℝ` (with `Real.rpow` / `Real.cos`) models the
luminance and contrast/gamma shaping.  External collaborators (the timezone
database, the wall clock, GTK) are modelled as explicit parameters.
-/

/-- Code points of a Lean string literal, for readable concrete inputs. -/
def codes (s : String) : List Nat := s.data.map (fun c => c.toNat)

/-- Python `str.strip` whitespace test (the code points Python treats as space). -/
def isPySpace (c : Nat) : Bool :=
  c == 9 || c == 10 || c == 11 || c == 12 || c == 13 || c == 28 || c == 29 ||
  c == 30 || c == 31 || c == 32 || c == 133 || c == 160 || c == 5760 ||
  (8192 ≤ c && c ≤ 8202) || c == 8232 || c == 8233 || c == 8239 ||
  c == 8287 || c == 12288

/-- Python `value.strip()`: drop whitespace from both ends. -/
def pyStrip (l : List Nat) : List Nat :=
  ((l.dropWhile isPySpace).reverse.dropWhile isPySpace).reverse

/-- One character of the class `[0-9a-fA-F]` from `HEX_COLOR_RE`. -/
def isHexDigitCode (c : Nat) : Bool :=
  (48 ≤ c && c ≤ 57) || (97 ≤ c && c ≤ 102) || (65 ≤ c && c ≤ 70)

/-- A lowercase hex digit (`[0-9a-f]`), the alphabet of normalized colors. -/
def isLowerHexCode (c : Nat) : Bool :=
  (48 ≤ c && c ≤ 57) || (97 ≤ c && c ≤ 102)

/-- Python `str.lower()` on an ASCII code point. -/
def toLowerCode (c : Nat) : Nat := if 65 ≤ c && c ≤ 90 then c + 32 else c

/-- Drop one optional leading `#` (the `#?` of `HEX_COLOR_RE`, and `lstrip("#")`
on already-normalized strings). -/
def dropHash (l : List Nat) : List Nat :=
  match l with
  | c :: rest => if c = 35 then rest else c :: rest
  | [] => []

/-- The regex `^#?[0-9a-fA-F]{6}$` from `HEX_COLOR_RE.match`. -/
def matchesHexColor (l : List Nat) : Bool :=
  (dropHash l).length == 6 && (dropHash l).all isHexDigitCode

/-- `normalize_hex` from `timezones.py`: strip, match `^#?[0-9a-fA-F]{6}$`,
ensure the `#` prefix and lowercase; `none` models Python's `None`. -/
def normalize_hex (value : List Nat) : Option (List Nat) :=
  let v := pyStrip value
  if matchesHexColor v then
    some ((if v.head? == some 35 then v else 35 :: v).map toLowerCode)
  else none

/-- The `isinstance(value, str)` guard of `normalize_hex`: a `none` argument
models a non-string Python value, which is rejected outright. -/
def normalizeHexValue : Option (List Nat) → Option (List Nat)
  | none => none
  | some s => normalize_hex s

/-- Value of one hex digit, as computed by Python `int(-, 16)` per character. -/
def hexDigitValCode (c : Nat) : Nat :=
  if c ≤ 57 then c - 48 else if c ≤ 70 then c - 55 else c - 87

/-- Python `int(h[i:i+2], 16)` on two hex-digit code points. -/
def hexPairVal (a b : Nat) : Nat := 16 * hexDigitValCode a + hexDigitValCode b

/-- `hex_to_rgb` from `timezones.py`: normalize (falling back to `#000000`),
strip the `#`, and parse the three channel bytes, each divided by 255. -/
def hex_to_rgb (h : List Nat) : ℚ × ℚ × ℚ :=
  match (normalize_hex h).getD (codes ("#000000")) with
  | _ :: a :: b :: c :: d :: e :: f :: _ =>
    ((hexPairVal a b : ℚ) / 255, (hexPairVal c d : ℚ) / 255, (hexPairVal e f : ℚ) / 255)
  | _ => (0, 0, 0)

/-- Python `int(-)` on an exact rational: truncation toward zero. -/
def pyIntQ (q : ℚ) : ℤ := if 0 ≤ q then ⌊q⌋ else ⌈q⌉

/-- Code point of one lowercase hex digit, as produced by format `x`. -/
def hexCharCode (n : Nat) : Nat := if n < 10 then 48 + n else 87 + n

/-- Hex digits of `n`, least significant first; structural recursion on fuel
(the fuel argument is always sufficient since `n` itself bounds the digit count). -/
def natToHexAux : Nat → Nat → List Nat
  | 0, n => [hexCharCode (n % 16)]
  | fuel + 1, n =>
    if n < 16 then [hexCharCode n] else hexCharCode (n % 16) :: natToHexAux fuel (n / 16)

/-- Python `format(n, "x")` for a natural number. -/
def natToHexDigits (n : Nat) : List Nat := (natToHexAux n n).reverse

/-- Zero-pad a digit string on the left to width `w` (Python `0w` formats). -/
def padZeros (w : Nat) (l : List Nat) : List Nat := List.replicate (w - l.length) 48 ++ l

/-- Python `f"{i:02x}"` on an integer (sign included in the width, as Python does). -/
def intToHexPad2 (i : ℤ) : List Nat :=
  if 0 ≤ i then padZeros 2 (natToHexDigits i.toNat)
  else 45 :: padZeros 1 (natToHexDigits i.natAbs)

/-- `rgb_to_hex` from `timezones.py`: truncate each channel times 255 to an
integer and format as `#` plus three `02x` fields. -/
def rgb_to_hex (c : ℚ × ℚ × ℚ) : List Nat :=
  35 :: (intToHexPad2 (pyIntQ (c.1 * 255)) ++ intToHexPad2 (pyIntQ (c.2.1 * 255)) ++
    intToHexPad2 (pyIntQ (c.2.2 * 255)))

/-- `blend_rgb` from `timezones.py`: per-channel linear interpolation
(polymorphic so the same definition serves the exact-ℚ and the ℝ call sites). -/
def blend_rgb {K : Type} [Field K] (a b : K × K × K) (t : K) : K × K × K :=
  (a.1 + (b.1 - a.1) * t, a.2.1 + (b.2.1 - a.2.1) * t, a.2.2 + (b.2.2 - a.2.2) * t)

/-- `mix_hex` from `timezones.py`: blend two hex colors, returning hex. -/
def mix_hex (a b : List Nat) (t : ℚ) : List Nat :=
  rgb_to_hex (blend_rgb (hex_to_rgb a) (hex_to_rgb b) t)

open Classical in
/-- channel linearization of `relative_luminance`: WCAG piecewise formula with
the real power `** 2.4`. -/
noncomputable def linearizeChannel (c : ℝ) : ℝ :=
  if c ≤ 0.04045 then c / 12.92 else ((c + 0.055) / 1.055) ^ (2.4 : ℝ)

/-- `relative_luminance` from `timezones.py`: weighted sum of linearized channels. -/
noncomputable def relative_luminance (h : List Nat) : ℝ :=
  0.2126 * linearizeChannel ((hex_to_rgb h).1 : ℝ) +
  0.7152 * linearizeChannel ((hex_to_rgb h).2.1 : ℝ) +
  0.0722 * linearizeChannel ((hex_to_rgb h).2.2 : ℝ)

/-- A theme mapping: Python dict from key strings to values; `none` values model
non-string entries (rejected by `normalize_hex`'s `isinstance` guard). -/
abbrev ThemeMap := List (List Nat × Option (List Nat))

/-- Python `theme.get(key, "")`: first matching key, defaulting to the empty string. -/
def themeGet (theme : ThemeMap) (k : List Nat) : Option (List Nat) :=
  match theme.find? (fun kv => kv.1 == k) with
  | some kv => kv.2
  | none => some []

/-- `pick_theme_color` from `timezones.py`: first candidate key whose value
normalizes (a normalized color is a nonempty string, hence truthy), else the
normalized fallback, else `"#000000"`. -/
def pick_theme_color (theme : ThemeMap) (keys : List (List Nat)) (fallback : List Nat) :
    List Nat :=
  match keys with
  | [] => (normalize_hex fallback).getD (codes ("#000000"))
  | k :: rest =>
    match normalizeHexValue (themeGet theme (k.map toLowerCode)) with
    | some v => v
    | none => pick_theme_color theme rest fallback

/-- The light/dark classification `relative_luminance(bg) > 0.46` from
`build_semantic_theme`. -/
def is_light_theme (bg : List Nat) : Prop := relative_luminance bg > 0.46

/-- The semantic palette returned by `build_semantic_theme` (the dict keys of
the source become record fields). -/
structure SemTheme where
  bg : List Nat
  fg : List Nat
  accent : List Nat
  cursor : List Nat
  dim : List Nat
  surface : List Nat
  surface2 : List Nat
  day : List Nat
  night : List Nat
  red : List Nat
  daylight_contrast : ℝ
  daylight_gamma : ℝ

open Classical in
/-- `build_semantic_theme` from `timezones.py`. -/
noncomputable def build_semantic_theme (theme : ThemeMap) : SemTheme :=
  let bg := pick_theme_color theme [codes ("background")] (codes ("#1a1b26"))
  let fg := pick_theme_color theme
    [codes ("foreground"), codes ("color15"), codes ("color7")] (codes ("#a9b1d6"))
  let accent := pick_theme_color theme
    [codes ("accent"), codes ("color4"), codes ("color12"), codes ("selection_background")]
    (codes ("#7aa2f7"))
  let cursor := pick_theme_color theme
    [codes ("cursor"), codes ("selection_foreground"), codes ("foreground")]
    (codes ("#c0caf5"))
  let dim := mix_hex fg bg (if is_light_theme bg then 0.44 else 0.5)
  let surface := mix_hex bg fg (if is_light_theme bg then 0.09 else 0.11)
  let surface2 := mix_hex bg fg (if is_light_theme bg then 0.16 else 0.2)
  let day_seed := pick_theme_color theme
    [codes ("color11"), codes ("color3"), codes ("accent")] accent
  let night_seed := pick_theme_color theme
    [codes ("color4"), codes ("accent"), codes ("color12")] accent
  let day := mix_hex day_seed (codes ("#ffffff")) (if is_light_theme bg then 0.16 else 0.28)
  let night := mix_hex bg night_seed (if is_light_theme bg then 0.42 else 0.34)
  let red := pick_theme_color theme [codes ("color1")] (codes ("#ef4444"))
  { bg := bg, fg := fg, accent := accent, cursor := cursor, dim := dim,
    surface := surface, surface2 := surface2, day := day, night := night, red := red,
    daylight_contrast := if is_light_theme bg then 1.45 else 1.6,
    daylight_gamma := if is_light_theme bg then 1.1 else 1.35 }

/-- The clamp `max(0.0, min(1.0, -))` used twice inside `contrast_mix`. -/
noncomputable def clamp01 (x : ℝ) : ℝ := max 0 (min 1 x)

/-- `contrast_mix` from `timezones.py`, with the palette's contrast and gamma as
explicit parameters (the source reads them from the module-level theme). -/
noncomputable def contrast_mix (contrast gamma mix : ℝ) : ℝ :=
  clamp01 (clamp01 ((mix - 0.5) * contrast + 0.5) ^ gamma)

/-- `daylight_mix` from `timezones.py`: cosine day curve then contrast shaping. -/
noncomputable def daylight_mix (contrast gamma : ℝ) (hour : ℝ) : ℝ :=
  contrast_mix contrast gamma ((Real.cos ((hour - 12) / 12 * Real.pi) + 1) / 2)

/-- `StatusStrip._get_average_daylight` from `timezones.py`.  Each city is
modelled by its wall-clock hour function `slider offset ↦ hour displacement ↦
hour of day` (abstracting `datetime.now(ZoneInfo(tz)) + timedelta(...)`). -/
noncomputable def get_average_daylight (contrast gamma : ℝ)
    (cityHour : List (ℝ → ℤ → ℕ)) (offset_hours : ℝ) (hour_offset : ℤ) : ℝ :=
  if cityHour.isEmpty then 0.5
  else ((cityHour.map
    (fun f => daylight_mix contrast gamma ((f offset_hours hour_offset : ℕ) : ℝ))).sum) /
    cityHour.length

/-- The 48-segment color sequence painted by `StatusStrip._draw`: segment `i`
uses hour displacement `-24 + i`, re-applies `contrast_mix` to the average, and
blends between the night and day palette colors. -/
noncomputable def gradient_strip (contrast gamma : ℝ) (night day : ℝ × ℝ × ℝ)
    (cityHour : List (ℝ → ℤ → ℕ)) (offset_hours : ℝ) : List (ℝ × ℝ × ℝ) :=
  (List.range 48).map (fun i : ℕ =>
    blend_rgb night day (contrast_mix contrast gamma
      (get_average_daylight contrast gamma cityHour offset_hours (-24 + (i : ℤ)))))

/-- The per-city accumulation loop of `_get_average_daylight`, made fallible:
`zinfo` models `ZoneInfo`, returning `none` for an unresolvable zone id, in
which case the loop aborts with that id (`ZoneInfoNotFoundError` names the
offending key). -/
noncomputable def daylight_total_checked (contrast gamma : ℝ)
    (zinfo : List Nat → Option (ℝ → ℤ → ℕ)) (offset_hours : ℝ) (hour_offset : ℤ) :
    List (List Nat) → Except (List Nat) ℝ
  | [] => Except.ok 0
  | tz :: rest =>
    match zinfo tz with
    | none => Except.error tz
    | some f =>
      match daylight_total_checked contrast gamma zinfo offset_hours hour_offset rest with
      | Except.error e => Except.error e
      | Except.ok total =>
        Except.ok (daylight_mix contrast gamma ((f offset_hours hour_offset : ℕ) : ℝ) + total)

/-- `_get_average_daylight` with explicit zone resolution: the empty list short
circuits to `0.5` before any lookup; otherwise the loop's first unresolvable
zone id propagates as the error. -/
noncomputable def get_average_daylight_checked (contrast gamma : ℝ)
    (zinfo : List Nat → Option (ℝ → ℤ → ℕ)) (offset_hours : ℝ)
    (tz_list : List (List Nat)) (hour_offset : ℤ) : Except (List Nat) ℝ :=
  if tz_list = [] then Except.ok 0.5
  else Except.map (fun total => total / tz_list.length)
    (daylight_total_checked contrast gamma zinfo offset_hours hour_offset tz_list)

/-- Decimal digits of `n`, least significant first, by fuel (always sufficient). -/
def natToDecAux : Nat → Nat → List Nat
  | 0, n => [48 + n % 10]
  | fuel + 1, n =>
    if n < 10 then [48 + n] else (48 + n % 10) :: natToDecAux fuel (n / 10)

/-- Python `str(n)` / `format(n, "d")` for a natural number. -/
def natToDec (n : Nat) : List Nat := (natToDecAux n n).reverse

/-- Python `f"{i:+d}"`: an explicit sign followed by the decimal magnitude. -/
def signedDec (i : ℤ) : List Nat := (if 0 ≤ i then [43] else [45]) ++ natToDec i.natAbs

/-- `get_offset_str` from `timezones.py`, as a function of the two UTC offsets
in whole seconds.  Python `int(diff_secs / 3600)` truncates the quotient toward
zero, i.e. it is `sign(diff) * (|diff| / 3600)` in floor division; and
`int((abs(diff_secs) % 3600) / 60)` on nonnegative whole seconds is floor
division. -/
def get_offset_str (local_off remote_off : ℤ) : List Nat :=
  let diff_secs : ℤ := remote_off - local_off
  let diff_h : ℤ :=
    if 0 ≤ diff_secs then ((diff_secs.natAbs / 3600 : ℕ) : ℤ)
    else -((diff_secs.natAbs / 3600 : ℕ) : ℤ)
  let diff_m : ℕ := diff_secs.natAbs % 3600 / 60
  if diff_h = 0 ∧ diff_m = 0 then codes ("Local")
  else if diff_m = 0 then signedDec diff_h ++ [104]
  else
    (if 0 ≤ diff_secs then [43] else [45]) ++ natToDec diff_h.natAbs ++ [104] ++
      padZeros 2 (natToDec diff_m) ++ [109]

/-- Python `round` on an exact rational: round half to even. -/
def pyRound (q : ℚ) : ℤ :=
  if q - ⌊q⌋ < 1/2 then ⌊q⌋
  else if 1/2 < q - ⌊q⌋ then ⌊q⌋ + 1
  else if ⌊q⌋ % 2 = 0 then ⌊q⌋ else ⌊q⌋ + 1

/-- `format_slider_label` from `timezones.py`, as a function of the target
wall-clock time (hour, minute) — abstracting `datetime.now + timedelta` and
`strftime("%H:%M")` — and the slider's hour offset. -/
def format_slider_label (targetHour targetMinute : ℕ) (hours_offset : ℚ) : List Nat :=
  let time_str := padZeros 2 (natToDec targetHour) ++ [58] ++ padZeros 2 (natToDec targetMinute)
  let total_minutes : ℤ := pyRound (hours_offset * 60)
  if total_minutes = 0 then time_str ++ codes (" · Now")
  else
    let sign := if 0 < total_minutes then [43] else [45]
    let hours := total_minutes.natAbs / 60
    let minutes := total_minutes.natAbs % 60
    let rel :=
      if hours ≠ 0 ∧ minutes ≠ 0 then
        sign ++ natToDec hours ++ [104] ++ padZeros 2 (natToDec minutes) ++ [109]
      else if hours ≠ 0 then sign ++ natToDec hours ++ [104]
      else sign ++ natToDec minutes ++ [109]
    time_str ++ codes (" · ") ++ rel ++ codes (" from now")


/-! ### Character-class helper lemmas -/

lemma isLowerHexCode_iff {c : Nat} :
    isLowerHexCode c = true ↔ (48 ≤ c ∧ c ≤ 57) ∨ (97 ≤ c ∧ c ≤ 102) := by
  simp [isLowerHexCode, Bool.or_eq_true, Bool.and_eq_true, decide_eq_true_eq]

lemma isHexDigitCode_iff {c : Nat} :
    isHexDigitCode c = true ↔
      (48 ≤ c ∧ c ≤ 57) ∨ (97 ≤ c ∧ c ≤ 102) ∨ (65 ≤ c ∧ c ≤ 70) := by
  simp [isHexDigitCode, Bool.or_eq_true, Bool.and_eq_true, decide_eq_true_eq, or_assoc]

lemma isPySpace_iff {c : Nat} :
    isPySpace c = true ↔
      (c = 9 ∨ c = 10 ∨ c = 11 ∨ c = 12 ∨ c = 13 ∨ c = 28 ∨ c = 29 ∨ c = 30 ∨
       c = 31 ∨ c = 32 ∨ c = 133 ∨ c = 160 ∨ c = 5760 ∨ (8192 ≤ c ∧ c ≤ 8202) ∨
       c = 8232 ∨ c = 8233 ∨ c = 8239 ∨ c = 8287 ∨ c = 12288) := by
  simp [isPySpace, Bool.or_eq_true, Bool.and_eq_true, decide_eq_true_eq, beq_iff_eq,
    or_assoc]

lemma isLowerHex_isHex {c : Nat} (h : isLowerHexCode c = true) : isHexDigitCode c = true := by
  rw [isLowerHexCode_iff] at h
  rw [isHexDigitCode_iff]
  omega

lemma toLowerCode_lower {c : Nat} (h : isHexDigitCode c = true) :
    isLowerHexCode (toLowerCode c) = true := by
  rw [isHexDigitCode_iff] at h
  rw [isLowerHexCode_iff]
  unfold toLowerCode
  split
  next hb =>
    simp only [Bool.and_eq_true, decide_eq_true_eq] at hb
    omega
  next hb =>
    simp only [Bool.and_eq_true, decide_eq_true_eq, not_and, Nat.not_le] at hb
    omega

lemma toLowerCode_fix {c : Nat} (h : isLowerHexCode c = true) : toLowerCode c = c := by
  rw [isLowerHexCode_iff] at h
  unfold toLowerCode
  split
  next hb =>
    simp only [Bool.and_eq_true, decide_eq_true_eq] at hb
    omega
  next hb => rfl

lemma isPySpace_false_of {c : Nat}
    (h : (48 ≤ c ∧ c ≤ 57) ∨ (97 ≤ c ∧ c ≤ 102) ∨ c = 35) : isPySpace c = false := by
  cases hb : isPySpace c
  · rfl
  · exfalso
    have := isPySpace_iff.mp hb
    omega

lemma map_toLowerCode_fix {l : List Nat} (h : ∀ c ∈ l, isLowerHexCode c = true) :
    l.map toLowerCode = l := by
  induction l with
  | nil => rfl
  | cons a t ih =>
    simp only [List.map_cons]
    rw [toLowerCode_fix (h a (by simp)), ih (fun c hc => h c (by simp [hc]))]

/-! ### `normalize_hex` structural lemmas -/

lemma dropWhile_eq_self_of_head {p : Nat → Bool} {l : List Nat}
    (h : ∀ c, l.head? = some c → p c = false) : l.dropWhile p = l := by
  cases l with
  | nil => rfl
  | cons a t =>
    rw [List.dropWhile_cons, h a rfl]
    simp

lemma pyStrip_fix {l : List Nat}
    (hh : ∀ c, l.head? = some c → isPySpace c = false)
    (hl : ∀ c, l.getLast? = some c → isPySpace c = false) : pyStrip l = l := by
  unfold pyStrip
  rw [dropWhile_eq_self_of_head hh]
  rw [dropWhile_eq_self_of_head (by simpa using hl)]
  exact List.reverse_reverse l

lemma normalize_hex_fix {l : List Nat} (h6 : l.length = 6)
    (hall : ∀ c ∈ l, isLowerHexCode c = true) :
    normalize_hex (35 :: l) = some (35 :: l) := by
  have hstrip : pyStrip (35 :: l) = 35 :: l := by
    apply pyStrip_fix
    · intro c hc
      simp only [List.head?_cons, Option.some.injEq] at hc
      exact isPySpace_false_of (by omega)
    · intro c hc
      have hmem : c ∈ 35 :: l := by
        rcases List.mem_getLast?_eq_getLast (Option.mem_def.mpr hc) with ⟨hne, rfl⟩
        exact List.getLast_mem hne
      rcases List.mem_cons.mp hmem with h35 | hmem2
      · exact isPySpace_false_of (by omega)
      · have := isLowerHexCode_iff.mp (hall c hmem2)
        exact isPySpace_false_of (by omega)
  have hmatch : matchesHexColor (35 :: l) = true := by
    unfold matchesHexColor
    have hd : dropHash (35 :: l) = l := rfl
    rw [hd]
    simp only [Bool.and_eq_true, beq_iff_eq, List.all_eq_true]
    exact ⟨h6, fun c hc => isLowerHex_isHex (hall c hc)⟩
  unfold normalize_hex
  rw [hstrip, if_pos hmatch]
  simp only [List.head?_cons, beq_self_eq_true, if_pos]
  rw [List.map_cons]
  have h35 : toLowerCode 35 = 35 := rfl
  rw [h35, map_toLowerCode_fix hall]

lemma normalize_hex_shape {s t : List Nat} (h : normalize_hex s = some t) :
    ∃ body, t = 35 :: body ∧ body.length = 6 ∧ ∀ c ∈ body, isLowerHexCode c = true := by
  simp only [normalize_hex] at h
  split at h
  case isTrue hm =>
    simp only [Option.some.injEq] at h
    rcases hv : pyStrip s with _ | ⟨c0, rest⟩
    · rw [hv] at hm
      exact absurd hm (by decide)
    · rw [hv] at hm h
      unfold matchesHexColor at hm
      simp only [Bool.and_eq_true, beq_iff_eq, List.all_eq_true] at hm
      by_cases hc0 : c0 = 35
      · subst hc0
        have hd : dropHash (35 :: rest) = rest := rfl
        rw [hd] at hm
        simp only [List.head?_cons, beq_self_eq_true, if_pos, List.map_cons] at h
        refine ⟨rest.map toLowerCode, ?_, ?_, ?_⟩
        · rw [← h]
          rfl
        · simp [hm.1]
        · intro c hc
          rcases List.mem_map.mp hc with ⟨c2, hc2, rfl⟩
          exact toLowerCode_lower (hm.2 c2 hc2)
      · have hd : dropHash (c0 :: rest) = c0 :: rest := by
          show (if c0 = 35 then rest else c0 :: rest) = c0 :: rest
          rw [if_neg hc0]
        rw [hd] at hm
        have hbeq : ((c0 :: rest).head? == some 35) = false := by
          simp [hc0]
        rw [hbeq] at h
        simp only [Bool.false_eq_true, if_false, List.map_cons] at h
        refine ⟨(c0 :: rest).map toLowerCode, ?_, ?_, ?_⟩
        · rw [← h]
          have h35 : toLowerCode 35 = 35 := by decide
          simp [h35]
        · rw [List.length_map]
          exact hm.1
        · intro c hc
          rcases List.mem_map.mp hc with ⟨c2, hc2, rfl⟩
          exact toLowerCode_lower (hm.2 c2 hc2)
  case isFalse => exact absurd h (by simp)

lemma normalize_hex_idem {s t : List Nat} (h : normalize_hex s = some t) :
    normalize_hex t = some t := by
  rcases normalize_hex_shape h with ⟨body, rfl, h6, hall⟩
  exact normalize_hex_fix h6 hall

/-! ### Hex digit and formatting lemmas -/

lemma hexDigitValCode_lt {c : Nat} (h : isHexDigitCode c = true) : hexDigitValCode c < 16 := by
  rw [isHexDigitCode_iff] at h
  unfold hexDigitValCode
  split_ifs <;> omega

lemma hexCharCode_val {c : Nat} (h : isLowerHexCode c = true) :
    hexCharCode (hexDigitValCode c) = c := by
  rw [isLowerHexCode_iff] at h
  unfold hexCharCode hexDigitValCode
  split_ifs <;> omega

lemma hexCharCode_lower {v : Nat} (h : v < 16) : isLowerHexCode (hexCharCode v) = true := by
  rw [isLowerHexCode_iff]
  unfold hexCharCode
  split_ifs <;> omega

lemma hexPairVal_le {a b : Nat} (ha : isHexDigitCode a = true) (hb : isHexDigitCode b = true) :
    hexPairVal a b ≤ 255 := by
  have h1 := hexDigitValCode_lt ha
  have h2 := hexDigitValCode_lt hb
  unfold hexPairVal
  omega

lemma natToHexAux_small {fuel n : Nat} (h : n < 16) : natToHexAux fuel n = [hexCharCode n] := by
  cases fuel with
  | zero =>
    unfold natToHexAux
    rw [Nat.mod_eq_of_lt h]
  | succ f =>
    unfold natToHexAux
    rw [if_pos h]

lemma natToHexDigits_small {n : Nat} (h : n < 16) : natToHexDigits n = [hexCharCode n] := by
  unfold natToHexDigits
  rw [natToHexAux_small h]
  rfl

lemma natToHexDigits_two {n : Nat} (h16 : 16 ≤ n) (h : n < 256) :
    natToHexDigits n = [hexCharCode (n / 16), hexCharCode (n % 16)] := by
  unfold natToHexDigits
  obtain ⟨f, rfl⟩ : ∃ f, n = f + 1 := ⟨n - 1, by omega⟩
  unfold natToHexAux
  rw [if_neg (by omega)]
  rw [natToHexAux_small (by omega : (f + 1) / 16 < 16)]
  rfl

lemma intToHexPad2_pair {a b : Nat} (ha : isLowerHexCode a = true)
    (hb : isLowerHexCode b = true) : intToHexPad2 (hexPairVal a b : ℤ) = [a, b] := by
  have hva := hexDigitValCode_lt (isLowerHex_isHex ha)
  have hvb := hexDigitValCode_lt (isLowerHex_isHex hb)
  unfold intToHexPad2
  rw [if_pos (by positivity)]
  rw [Int.toNat_natCast]
  by_cases hsmall : hexPairVal a b < 16
  · have hva0 : hexDigitValCode a = 0 := by
      unfold hexPairVal at hsmall
      omega
    have ha48 : a = 48 := by
      have := hexCharCode_val ha
      rw [hva0] at this
      exact this.symm
    rw [natToHexDigits_small hsmall]
    have hb16 : hexPairVal a b = hexDigitValCode b := by
      unfold hexPairVal
      omega
    rw [hb16, hexCharCode_val hb, ha48]
    rfl
  · rw [natToHexDigits_two (by omega) (by unfold hexPairVal at *; omega)]
    have hdiv : hexPairVal a b / 16 = hexDigitValCode a := by
      unfold hexPairVal
      omega
    have hmod : hexPairVal a b % 16 = hexDigitValCode b := by
      unfold hexPairVal
      omega
    rw [hdiv, hmod, hexCharCode_val ha, hexCharCode_val hb]
    rfl

lemma intToHexPad2_shape {k : ℤ} (h0 : 0 ≤ k) (h : k ≤ 255) :
    ∃ a b, intToHexPad2 k = [a, b] ∧ isLowerHexCode a = true ∧ isLowerHexCode b = true := by
  unfold intToHexPad2
  rw [if_pos h0]
  by_cases hn : k.toNat < 16
  · refine ⟨48, hexCharCode k.toNat, ?_, by decide, hexCharCode_lower hn⟩
    rw [natToHexDigits_small hn]
    rfl
  · refine ⟨hexCharCode (k.toNat / 16), hexCharCode (k.toNat % 16), ?_,
      hexCharCode_lower (by omega), hexCharCode_lower (by omega)⟩
    rw [natToHexDigits_two (by omega) (by omega)]
    rfl

lemma exists_six {l : List Nat} (h : l.length = 6) :
    ∃ a b c d e f, l = [a, b, c, d, e, f] := by
  rcases l with _ | ⟨a, _ | ⟨b, _ | ⟨c, _ | ⟨d, _ | ⟨e, _ | ⟨f, _ | ⟨g, t⟩⟩⟩⟩⟩⟩⟩ <;>
    simp only [List.length_cons, List.length_nil] at h
  · omega
  · omega
  · omega
  · omega
  · omega
  · omega
  · exact ⟨a, b, c, d, e, f, rfl⟩
  · omega

/-! ### Exact-arithmetic round-trip and validity lemmas -/

lemma pyIntQ_div255_mul (k : ℕ) : pyIntQ ((k : ℚ) / 255 * 255) = k := by
  have h : ((k : ℚ) / 255 * 255) = (k : ℚ) := by
    field_simp
  rw [h]
  unfold pyIntQ
  rw [if_pos (by positivity)]
  exact_mod_cast Int.floor_natCast k

lemma hex_to_rgb_eval {s t : List Nat} (h : normalize_hex s = some t) :
    ∃ a b c d e f, t = [35, a, b, c, d, e, f] ∧
      (∀ x ∈ [a, b, c, d, e, f], isLowerHexCode x = true) ∧
      hex_to_rgb s =
        ((hexPairVal a b : ℚ) / 255, (hexPairVal c d : ℚ) / 255, (hexPairVal e f : ℚ) / 255) := by
  rcases normalize_hex_shape h with ⟨body, rfl, h6, hall⟩
  rcases exists_six h6 with ⟨a, b, c, d, e, f, rfl⟩
  refine ⟨a, b, c, d, e, f, rfl, fun x hx => hall x hx, ?_⟩
  unfold hex_to_rgb
  rw [h]
  rfl

lemma hex_to_rgb_none {s : List Nat} (h : normalize_hex s = none) :
    hex_to_rgb s = (0, 0, 0) := by
  unfold hex_to_rgb
  rw [h]
  show ((hexPairVal 48 48 : ℚ) / 255, (hexPairVal 48 48 : ℚ) / 255,
    (hexPairVal 48 48 : ℚ) / 255) = (0, 0, 0)
  norm_num [hexPairVal, hexDigitValCode]

lemma hex_to_rgb_bounds (s : List Nat) :
    (0 ≤ (hex_to_rgb s).1 ∧ (hex_to_rgb s).1 ≤ 1) ∧
    (0 ≤ (hex_to_rgb s).2.1 ∧ (hex_to_rgb s).2.1 ≤ 1) ∧
    (0 ≤ (hex_to_rgb s).2.2 ∧ (hex_to_rgb s).2.2 ≤ 1) := by
  have key : ∀ k : ℕ, k ≤ 255 → 0 ≤ (k : ℚ) / 255 ∧ (k : ℚ) / 255 ≤ 1 := by
    intro k hk
    constructor
    · positivity
    · rw [div_le_one (by norm_num)]
      exact_mod_cast hk
  cases hn : normalize_hex s with
  | some t =>
    rcases hex_to_rgb_eval hn with ⟨a, b, c, d, e, f, ht, hall, heq⟩
    have hpair : ∀ x y : Nat, x ∈ [a, b, c, d, e, f] → y ∈ [a, b, c, d, e, f] →
        hexPairVal x y ≤ 255 := by
      intro x y hx hy
      exact hexPairVal_le (isLowerHex_isHex (hall x hx)) (isLowerHex_isHex (hall y hy))
    rw [heq]
    exact ⟨key _ (hpair a b (by simp) (by simp)), key _ (hpair c d (by simp) (by simp)),
      key _ (hpair e f (by simp) (by simp))⟩
  | none =>
    rw [hex_to_rgb_none hn]
    norm_num

lemma blend_channel_bounds {x y t : ℚ} (hx0 : 0 ≤ x) (hx1 : x ≤ 1) (hy0 : 0 ≤ y)
    (hy1 : y ≤ 1) (ht0 : 0 ≤ t) (ht1 : t ≤ 1) :
    0 ≤ x + (y - x) * t ∧ x + (y - x) * t ≤ 1 := by
  constructor <;> nlinarith

lemma pyIntQ_mul255_bounds {q : ℚ} (h0 : 0 ≤ q) (h1 : q ≤ 1) :
    0 ≤ pyIntQ (q * 255) ∧ pyIntQ (q * 255) ≤ 255 := by
  unfold pyIntQ
  rw [if_pos (by positivity)]
  constructor
  · exact Int.floor_nonneg.mpr (by positivity)
  · have hle : (q * 255 : ℚ) ≤ 255 := by nlinarith
    calc ⌊q * 255⌋ ≤ ⌊(255 : ℚ)⌋ := Int.floor_le_floor hle
    _ = 255 := by norm_num

lemma rgb_to_hex_valid {c : ℚ × ℚ × ℚ}
    (h1 : 0 ≤ c.1 ∧ c.1 ≤ 1) (h2 : 0 ≤ c.2.1 ∧ c.2.1 ≤ 1) (h3 : 0 ≤ c.2.2 ∧ c.2.2 ≤ 1) :
    normalize_hex (rgb_to_hex c) = some (rgb_to_hex c) := by
  have b1 := pyIntQ_mul255_bounds h1.1 h1.2
  have b2 := pyIntQ_mul255_bounds h2.1 h2.2
  have b3 := pyIntQ_mul255_bounds h3.1 h3.2
  rcases intToHexPad2_shape b1.1 b1.2 with ⟨a1, a2, he1, hl11, hl12⟩
  rcases intToHexPad2_shape b2.1 b2.2 with ⟨a3, a4, he2, hl21, hl22⟩
  rcases intToHexPad2_shape b3.1 b3.2 with ⟨a5, a6, he3, hl31, hl32⟩
  unfold rgb_to_hex
  rw [he1, he2, he3]
  have hfix := normalize_hex_fix (l := [a1, a2, a3, a4, a5, a6]) (by simp) (by
    intro x hx
    simp only [List.mem_cons, List.not_mem_nil, or_false] at hx
    rcases hx with rfl | rfl | rfl | rfl | rfl | rfl <;> assumption)
  simpa using hfix

lemma mix_hex_valid {a b : List Nat} {t : ℚ} (ht0 : 0 ≤ t) (ht1 : t ≤ 1) :
    normalize_hex (mix_hex a b t) = some (mix_hex a b t) := by
  have ha := hex_to_rgb_bounds a
  have hb := hex_to_rgb_bounds b
  unfold mix_hex
  apply rgb_to_hex_valid
  · simp only [blend_rgb]
    exact blend_channel_bounds ha.1.1 ha.1.2 hb.1.1 hb.1.2 ht0 ht1
  · simp only [blend_rgb]
    exact blend_channel_bounds ha.2.1.1 ha.2.1.2 hb.2.1.1 hb.2.1.2 ht0 ht1
  · simp only [blend_rgb]
    exact blend_channel_bounds ha.2.2.1 ha.2.2.2 hb.2.2.1 hb.2.2.2 ht0 ht1

/-! ### `pick_theme_color` lemmas -/

lemma pick_theme_color_valid (theme : ThemeMap) (keys : List (List Nat)) (fallback : List Nat) :
    normalize_hex (pick_theme_color theme keys fallback) =
      some (pick_theme_color theme keys fallback) := by
  induction keys with
  | nil =>
    unfold pick_theme_color
    cases hn : normalize_hex fallback with
    | some v =>
      simpa using normalize_hex_idem hn
    | none =>
      decide
  | cons k rest ih =>
    unfold pick_theme_color
    cases hv : normalizeHexValue (themeGet theme (k.map toLowerCode)) with
    | some v =>
      simp only [hv]
      unfold normalizeHexValue at hv
      cases hg : themeGet theme (k.map toLowerCode) with
      | none =>
        rw [hg] at hv
        exact absurd hv (by simp)
      | some s2 =>
        rw [hg] at hv
        exact normalize_hex_idem hv
    | none =>
      simp only [hv]
      exact ih

lemma pick_theme_color_black {theme : ThemeMap} {keys : List (List Nat)} {fallback : List Nat}
    (hk : ∀ k ∈ keys, normalizeHexValue (themeGet theme (k.map toLowerCode)) = none)
    (hf : normalize_hex fallback = none) :
    pick_theme_color theme keys fallback = codes ("#000000") := by
  induction keys with
  | nil =>
    unfold pick_theme_color
    rw [hf]
    rfl
  | cons k rest ih =>
    unfold pick_theme_color
    rw [hk k (by simp)]
    exact ih (fun k2 h2 => hk k2 (by simp [h2]))

/-! ### Real-valued shaping lemmas -/

lemma clamp01_mem (x : ℝ) : 0 ≤ clamp01 x ∧ clamp01 x ≤ 1 := by
  unfold clamp01
  refine ⟨le_max_left 0 _, max_le (by norm_num) (min_le_left 1 x)⟩

lemma clamp01_mono {x y : ℝ} (h : x ≤ y) : clamp01 x ≤ clamp01 y := by
  unfold clamp01
  exact max_le_max le_rfl (min_le_min le_rfl h)

lemma contrast_mix_mem (contrast gamma mix : ℝ) :
    0 ≤ contrast_mix contrast gamma mix ∧ contrast_mix contrast gamma mix ≤ 1 := by
  unfold contrast_mix
  exact clamp01_mem _

lemma contrast_mix_mono {contrast gamma m1 m2 : ℝ} (hc : 0 ≤ contrast) (hg : 0 ≤ gamma)
    (h : m1 ≤ m2) : contrast_mix contrast gamma m1 ≤ contrast_mix contrast gamma m2 := by
  unfold contrast_mix
  apply clamp01_mono
  apply Real.rpow_le_rpow (clamp01_mem _).1 _ hg
  apply clamp01_mono
  nlinarith

lemma linearizeChannel_le_sq {x : ℝ} (hx : 0.04045 < x) (hx1 : x ≤ 1) :
    linearizeChannel x ≤ ((x + 0.055) / 1.055) ^ 2 := by
  unfold linearizeChannel
  rw [if_neg (by linarith)]
  have hb0 : (0 : ℝ) < (x + 0.055) / 1.055 := by positivity
  have hb1 : (x + 0.055) / 1.055 ≤ 1 := by
    rw [div_le_one (by norm_num)]
    linarith
  calc ((x + 0.055) / 1.055) ^ (2.4 : ℝ) ≤ ((x + 0.055) / 1.055) ^ ((2 : ℕ) : ℝ) :=
        Real.rpow_le_rpow_of_exponent_ge hb0 hb1 (by norm_num)
  _ = ((x + 0.055) / 1.055) ^ 2 := Real.rpow_natCast _ 2

lemma relative_luminance_1a1b26 : relative_luminance (codes ("#1a1b26")) ≤ 0.46 := by
  have hrgb : hex_to_rgb (codes ("#1a1b26")) = (26/255, 27/255, 38/255) := by
    have h : (normalize_hex (codes ("#1a1b26"))).getD (codes ("#000000")) =
        [35, 49, 97, 49, 98, 50, 54] := by decide
    rw [hex_to_rgb, h]
    norm_num [hexPairVal, hexDigitValCode]
  unfold relative_luminance
  rw [hrgb]
  have c1 : (((26 : ℚ) / 255 : ℚ) : ℝ) = 26 / 255 := by norm_num
  have c2 : (((27 : ℚ) / 255 : ℚ) : ℝ) = 27 / 255 := by norm_num
  have c3 : (((38 : ℚ) / 255 : ℚ) : ℝ) = 38 / 255 := by norm_num
  simp only [c1, c2, c3]
  have h1 : linearizeChannel ((26 : ℝ) / 255) ≤ (((26 : ℝ) / 255 + 0.055) / 1.055) ^ 2 :=
    linearizeChannel_le_sq (by norm_num) (by norm_num)
  have h2 : linearizeChannel ((27 : ℝ) / 255) ≤ (((27 : ℝ) / 255 + 0.055) / 1.055) ^ 2 :=
    linearizeChannel_le_sq (by norm_num) (by norm_num)
  have h3 : linearizeChannel ((38 : ℝ) / 255) ≤ (((38 : ℝ) / 255 + 0.055) / 1.055) ^ 2 :=
    linearizeChannel_le_sq (by norm_num) (by norm_num)
  have hnum : 0.2126 * ((((26 : ℝ) / 255 + 0.055) / 1.055) ^ 2) +
      0.7152 * ((((27 : ℝ) / 255 + 0.055) / 1.055) ^ 2) +
      0.0722 * ((((38 : ℝ) / 255 + 0.055) / 1.055) ^ 2) ≤ 0.46 := by
    norm_num
  linarith

lemma not_is_light_1a1b26 : ¬ is_light_theme (codes ("#1a1b26")) := by
  unfold is_light_theme
  push_neg
  exact relative_luminance_1a1b26

/-! ### Characterization of the hex-color pattern -/

lemma matchesHexColor_iff {v : List Nat} :
    matchesHexColor v = true ↔
      ∃ d, (v = d ∨ v = 35 :: d) ∧ d.length = 6 ∧ ∀ c ∈ d, isHexDigitCode c = true := by
  constructor
  · intro h
    unfold matchesHexColor at h
    simp only [Bool.and_eq_true, beq_iff_eq, List.all_eq_true] at h
    rcases v with _ | ⟨c0, rest⟩
    · exact absurd h.1 (by decide)
    · by_cases hc0 : c0 = 35
      · subst hc0
        have hd : dropHash (35 :: rest) = rest := rfl
        rw [hd] at h
        exact ⟨rest, Or.inr rfl, h.1, h.2⟩
      · have hd : dropHash (c0 :: rest) = c0 :: rest := by
          show (if c0 = 35 then rest else c0 :: rest) = c0 :: rest
          rw [if_neg hc0]
        rw [hd] at h
        exact ⟨c0 :: rest, Or.inl rfl, h.1, h.2⟩
  · rintro ⟨d, hd, h6, hall⟩
    unfold matchesHexColor
    simp only [Bool.and_eq_true, beq_iff_eq, List.all_eq_true]
    rcases hd with hd | hd
    · rw [hd]
      rcases d with _ | ⟨c0, rest⟩
      · exact absurd h6 (by decide)
      · have hc0 : c0 ≠ 35 := by
          have := isHexDigitCode_iff.mp (hall c0 (by simp))
          omega
        have hd2 : dropHash (c0 :: rest) = c0 :: rest := by
          show (if c0 = 35 then rest else c0 :: rest) = c0 :: rest
          rw [if_neg hc0]
        rw [hd2]
        exact ⟨h6, hall⟩
    · rw [hd]
      have hd2 : dropHash (35 :: d) = d := rfl
      rw [hd2]
      exact ⟨h6, hall⟩

/-- C4: for every valid 6-hex-digit color string `s`, `rgb_to_hex (hex_to_rgb s)`
equals `normalize_hex s`.  In the exact rational model the `/255` then `*255`
round trip is exact, so the truncating integer conversion reproduces each
channel byte and the round trip deviates by zero (within the claimed one-unit
tolerance). -/
theorem C4_hex_roundtrip (s t : List Nat) (h : normalize_hex s = some t) :
    rgb_to_hex (hex_to_rgb s) = t := by
  rcases hex_to_rgb_eval h with ⟨a, b, c, d, e, f, rfl, hall, heq⟩
  rw [heq]
  unfold rgb_to_hex
  dsimp only
  rw [pyIntQ_div255_mul, pyIntQ_div255_mul, pyIntQ_div255_mul]
  rw [intToHexPad2_pair (hall a (by simp)) (hall b (by simp)),
    intToHexPad2_pair (hall c (by simp)) (hall d (by simp)),
    intToHexPad2_pair (hall e (by simp)) (hall f (by simp))]
  rfl

/-- Witness for C4 at the concrete input `"#AB12EF"`. -/
theorem C4_hex_roundtrip_witness :
    normalize_hex (codes ("#AB12EF")) = some (codes ("#ab12ef")) ∧
    rgb_to_hex (hex_to_rgb (codes ("#AB12EF"))) = codes ("#ab12ef") :=
  ⟨by decide, C4_hex_roundtrip _ _ (by decide)⟩

/-- C5: for every real input mix and every contrast > 0 and gamma > 0,
`contrast_mix` — clamp of the contrast stretch, then clamp of the gamma
power — lies in the closed interval [0, 1]. -/
theorem C5_contrast_mix_unit_interval (mix contrast gamma : ℝ)
    (_hc : 0 < contrast) (_hg : 0 < gamma) :
    0 ≤ contrast_mix contrast gamma mix ∧ contrast_mix contrast gamma mix ≤ 1 :=
  contrast_mix_mem contrast gamma mix

/-- Witness for C5 at mix 0.3 with the dark-theme contrast 1.6 and gamma 1.35. -/
theorem C5_contrast_mix_unit_interval_witness :
    (0 : ℝ) < 1.6 ∧ (0 : ℝ) < 1.35 ∧
      (0 ≤ contrast_mix 1.6 1.35 0.3 ∧ contrast_mix 1.6 1.35 0.3 ≤ 1) :=
  ⟨by norm_num, by norm_num,
    C5_contrast_mix_unit_interval 0.3 1.6 1.35 (by norm_num) (by norm_num)⟩

/-- C9: for every fixed contrast > 0 and gamma > 0, `contrast_mix` is monotone
non-decreasing in its mix argument, so the shaping never reorders the relative
brightness of two hours. -/
theorem C9_contrast_mix_monotone (contrast gamma m1 m2 : ℝ)
    (hc : 0 < contrast) (hg : 0 < gamma) (h : m1 ≤ m2) :
    contrast_mix contrast gamma m1 ≤ contrast_mix contrast gamma m2 :=
  contrast_mix_mono (le_of_lt hc) (le_of_lt hg) h

/-- Witness for C9 on the pair 0.2 ≤ 0.7 with contrast 1.6 and gamma 1.35. -/
theorem C9_contrast_mix_monotone_witness :
    (0 : ℝ) < 1.6 ∧ (0 : ℝ) < 1.35 ∧ (0.2 : ℝ) ≤ 0.7 ∧
      contrast_mix 1.6 1.35 0.2 ≤ contrast_mix 1.6 1.35 0.7 :=
  ⟨by norm_num, by norm_num, by norm_num,
    C9_contrast_mix_monotone 1.6 1.35 0.2 0.7 (by norm_num) (by norm_num) (by norm_num)⟩

/-- C7: `normalize_hex` strips surrounding whitespace, succeeds exactly when the
stripped value is an optional `#` followed by exactly six hex digits of either
case, and then returns the lowercase `#rrggbb` form (itself a fixed point of
normalization, never a coerced or partial color); every other string maps to
`none`. -/
theorem C7_normalize_hex_characterization (s : List Nat) :
    ((∃ t, normalize_hex s = some t) ↔
      (∃ d, (pyStrip s = d ∨ pyStrip s = 35 :: d) ∧ d.length = 6 ∧
        ∀ c ∈ d, isHexDigitCode c = true)) ∧
    (∀ t, normalize_hex s = some t →
      t = 35 :: (dropHash (pyStrip s)).map toLowerCode ∧ normalize_hex t = some t) := by
  constructor
  · constructor
    · rintro ⟨t, ht⟩
      have hm : matchesHexColor (pyStrip s) = true := by
        by_contra hc
        simp only [normalize_hex] at ht
        rw [if_neg hc] at ht
        exact absurd ht (by simp)
      exact matchesHexColor_iff.mp hm
    · intro hpat
      have hm : matchesHexColor (pyStrip s) = true := matchesHexColor_iff.mpr hpat
      rw [← Option.isSome_iff_exists]
      simp only [normalize_hex]
      rw [if_pos hm]
      rfl
  · intro t ht
    refine ⟨?_, normalize_hex_idem ht⟩
    simp only [normalize_hex] at ht
    split at ht
    case isTrue hm =>
      simp only [Option.some.injEq] at ht
      rcases hv : pyStrip s with _ | ⟨c0, rest⟩
      · rw [hv] at hm
        exact absurd hm (by decide)
      · rw [hv] at ht
        by_cases hc0 : c0 = 35
        · subst hc0
          simp only [List.head?_cons, beq_self_eq_true, if_pos, List.map_cons] at ht
          have hd : dropHash (35 :: rest) = rest := rfl
          rw [← ht, hd]
          rfl
        · have hbeq : ((c0 :: rest).head? == some 35) = false := by simp [hc0]
          rw [hbeq] at ht
          simp only [Bool.false_eq_true, if_false, List.map_cons] at ht
          have hd : dropHash (c0 :: rest) = c0 :: rest := by
            show (if c0 = 35 then rest else c0 :: rest) = c0 :: rest
            rw [if_neg hc0]
          rw [← ht, hd]
          have h35 : toLowerCode 35 = 35 := rfl
          rw [List.map_cons, h35]
    case isFalse => exact absurd ht (by simp)

/-- Witness for C7 at the concrete input `" 1A2b3C "`. -/
theorem C7_normalize_hex_characterization_witness :
    normalize_hex (codes (" 1A2b3C ")) = some (codes ("#1a2b3c")) ∧
    (codes ("#1a2b3c") = 35 :: (dropHash (pyStrip (codes (" 1A2b3C ")))).map toLowerCode ∧
      normalize_hex (codes ("#1a2b3c")) = some (codes ("#1a2b3c"))) :=
  ⟨by decide,
    (C7_normalize_hex_characterization (codes (" 1A2b3C "))).2 (codes ("#1a2b3c")) (by decide)⟩

/-- C10: `pick_theme_color` always returns a valid normalized `#rrggbb` string
for every theme mapping, candidate list and fallback; in particular when no
candidate key holds a valid color and the fallback itself fails the pattern it
returns `"#000000"` instead of propagating the invalid fallback. -/
theorem C10_pick_theme_color_total (theme : ThemeMap) (keys : List (List Nat))
    (fallback : List Nat) :
    normalize_hex (pick_theme_color theme keys fallback) =
      some (pick_theme_color theme keys fallback) ∧
    ((∀ k ∈ keys, normalizeHexValue (themeGet theme (k.map toLowerCode)) = none) →
      normalize_hex fallback = none →
      pick_theme_color theme keys fallback = codes ("#000000")) :=
  ⟨pick_theme_color_valid theme keys fallback, fun hk hf => pick_theme_color_black hk hf⟩

/-- Witness for C10: empty theme, candidate `background`, malformed fallback. -/
theorem C10_pick_theme_color_total_witness :
    (∀ k ∈ [codes ("background")],
      normalizeHexValue (themeGet [] (k.map toLowerCode)) = none) ∧
    normalize_hex (codes ("oops")) = none ∧
    pick_theme_color [] [codes ("background")] (codes ("oops")) = codes ("#000000") :=
  ⟨by decide, by decide,
    (C10_pick_theme_color_total [] [codes ("background")] (codes ("oops"))).2
      (by decide) (by decide)⟩

/-! ### Aggregator lemmas and claims C2, C8 -/

lemma daylight_total_checked_ok {contrast gamma : ℝ}
    {zinfo : List Nat → Option (ℝ → ℤ → ℕ)} {offset_hours : ℝ} {hour_offset : ℤ}
    {l : List (List Nat)} (h : ∀ tz ∈ l, (zinfo tz).isSome = true) :
    ∃ v, daylight_total_checked contrast gamma zinfo offset_hours hour_offset l =
      Except.ok v := by
  induction l with
  | nil => exact ⟨0, rfl⟩
  | cons tz rest ih =>
    rcases Option.isSome_iff_exists.mp (h tz (by simp)) with ⟨f, hf⟩
    rcases ih (fun tz2 h2 => h tz2 (by simp [h2])) with ⟨v, hv⟩
    refine ⟨daylight_mix contrast gamma ((f offset_hours hour_offset : ℕ) : ℝ) + v, ?_⟩
    unfold daylight_total_checked
    rw [hf, hv]

lemma daylight_total_checked_error {contrast gamma : ℝ}
    {zinfo : List Nat → Option (ℝ → ℤ → ℕ)} {offset_hours : ℝ} {hour_offset : ℤ}
    (pre : List (List Nat)) (bad : List Nat) (post : List (List Nat))
    (hpre : ∀ tz ∈ pre, (zinfo tz).isSome = true) (hbad : zinfo bad = none) :
    daylight_total_checked contrast gamma zinfo offset_hours hour_offset
      (pre ++ bad :: post) = Except.error bad := by
  induction pre with
  | nil =>
    simp only [List.nil_append]
    unfold daylight_total_checked
    rw [hbad]
  | cons tz rest ih =>
    rcases Option.isSome_iff_exists.mp (hpre tz (by simp)) with ⟨f, hf⟩
    have hrec := ih (fun tz2 h2 => hpre tz2 (by simp [h2]))
    simp only [List.cons_append]
    unfold daylight_total_checked
    rw [hf, hrec]

/-- C2: the gradient strip always has exactly 48 buckets; bucket `i` covers
hour displacement `-24 + i` (displacement 0 at index 24) and is the blend of
the palette's night and day colors by the re-applied contrast curve of that
bucket's average mix; for an empty city list and any slider offset every
bucket is the identical color `blend night day (contrast_mix 0.5)` (the
per-bucket average defaults to 0.5 with no cities). -/
theorem C2_gradient_strip_structure (contrast gamma : ℝ) (night day : ℝ × ℝ × ℝ)
    (cityHour : List (ℝ → ℤ → ℕ)) (offset_hours : ℝ) :
    (gradient_strip contrast gamma night day cityHour offset_hours).length = 48 ∧
    (∀ i : ℕ, i < 48 →
      (gradient_strip contrast gamma night day cityHour offset_hours).getD i (0, 0, 0) =
        blend_rgb night day (contrast_mix contrast gamma
          (get_average_daylight contrast gamma cityHour offset_hours (-24 + (i : ℤ))))) ∧
    (cityHour = [] → ∀ i : ℕ, i < 48 →
      (gradient_strip contrast gamma night day cityHour offset_hours).getD i (0, 0, 0) =
        blend_rgb night day (contrast_mix contrast gamma 0.5)) := by
  have hlen : (gradient_strip contrast gamma night day cityHour offset_hours).length = 48 := by
    unfold gradient_strip
    rw [List.length_map, List.length_range]
  have hget : ∀ i : ℕ, i < 48 →
      (gradient_strip contrast gamma night day cityHour offset_hours).getD i (0, 0, 0) =
        blend_rgb night day (contrast_mix contrast gamma
          (get_average_daylight contrast gamma cityHour offset_hours (-24 + (i : ℤ)))) := by
    intro i hi
    unfold gradient_strip
    rw [List.getD_eq_getElem?_getD, List.getElem?_map, List.getElem?_range hi]
    rfl
  refine ⟨hlen, hget, ?_⟩
  rintro rfl i hi
  rw [hget i hi]
  have havg : get_average_daylight contrast gamma [] offset_hours (-24 + (i : ℤ)) = 0.5 := by
    unfold get_average_daylight
    rfl
  rw [havg]

/-- Witness for C2: empty city list, index 24 (displacement 0). -/
theorem C2_gradient_strip_structure_witness :
    (gradient_strip 1.6 1.35 (0, 0, 0) (1, 1, 1) [] 0).length = 48 ∧
    (24 : ℕ) < 48 ∧
    (gradient_strip 1.6 1.35 (0, 0, 0) (1, 1, 1) [] 0).getD 24 (0, 0, 0) =
      blend_rgb (0, 0, 0) (1, 1, 1) (contrast_mix 1.6 1.35 0.5) := by
  obtain ⟨h1, _h2, h3⟩ := C2_gradient_strip_structure 1.6 1.35 (0, 0, 0) (1, 1, 1) [] 0
  exact ⟨h1, by norm_num, h3 rfl 24 (by norm_num)⟩

/-- C8: if any zone id in the city list is unresolvable, the average-daylight
computation propagates an error naming the first offending id to the caller
instead of silently dropping that city; when every zone id resolves no error
is produced. -/
theorem C8_invalid_zone_propagates (contrast gamma : ℝ)
    (zinfo : List Nat → Option (ℝ → ℤ → ℕ)) (offset_hours : ℝ) (hour_offset : ℤ)
    (tz_list : List (List Nat)) :
    ((∀ tz ∈ tz_list, (zinfo tz).isSome = true) →
      ∃ v, get_average_daylight_checked contrast gamma zinfo offset_hours tz_list
        hour_offset = Except.ok v) ∧
    (∀ pre bad post, tz_list = pre ++ bad :: post →
      (∀ tz ∈ pre, (zinfo tz).isSome = true) → zinfo bad = none →
      get_average_daylight_checked contrast gamma zinfo offset_hours tz_list
        hour_offset = Except.error bad) := by
  constructor
  · intro hall
    unfold get_average_daylight_checked
    by_cases he : tz_list = []
    · rw [if_pos he]
      exact ⟨0.5, rfl⟩
    · rw [if_neg he]
      rcases daylight_total_checked_ok hall with ⟨v, hv⟩
      refine ⟨v / tz_list.length, ?_⟩
      rw [hv]
      rfl
  · intro pre bad post heq hpre hbad
    subst heq
    unfold get_average_daylight_checked
    rw [if_neg (by simp)]
    rw [daylight_total_checked_error pre bad post hpre hbad]
    rfl

/-- Witness for C8: a valid zone followed by an unresolvable one propagates the
unresolvable id. -/
theorem C8_invalid_zone_propagates_witness :
    ([codes ("UTC"), codes ("Mars/Olympus")] : List (List Nat)) =
      [codes ("UTC")] ++ codes ("Mars/Olympus") :: [] ∧
    (∀ tz ∈ [codes ("UTC")],
      (((fun tz2 => if tz2 = codes ("UTC") then some (fun _ _ => (0 : ℕ)) else none) :
        List Nat → Option (ℝ → ℤ → ℕ)) tz).isSome = true) ∧
    ((fun tz2 => if tz2 = codes ("UTC") then some (fun _ _ => (0 : ℕ)) else none) :
      List Nat → Option (ℝ → ℤ → ℕ)) (codes ("Mars/Olympus")) = none ∧
    get_average_daylight_checked 1.6 1.35
      ((fun tz2 => if tz2 = codes ("UTC") then some (fun _ _ => (0 : ℕ)) else none) :
        List Nat → Option (ℝ → ℤ → ℕ)) 0
      [codes ("UTC"), codes ("Mars/Olympus")] 0 = Except.error (codes ("Mars/Olympus")) := by
  have hbad : ((fun tz2 => if tz2 = codes ("UTC") then some (fun _ _ => (0 : ℕ)) else none) :
      List Nat → Option (ℝ → ℤ → ℕ)) (codes ("Mars/Olympus")) = none := by
    show (if codes ("Mars/Olympus") = codes ("UTC") then some (fun _ _ => (0 : ℕ)) else none :
      Option (ℝ → ℤ → ℕ)) = none
    rw [if_neg (by decide)]
  refine ⟨rfl, by decide, hbad, ?_⟩
  exact (C8_invalid_zone_propagates 1.6 1.35
      ((fun tz2 => if tz2 = codes ("UTC") then some (fun _ _ => (0 : ℕ)) else none) :
        List Nat → Option (ℝ → ℤ → ℕ)) 0 0 [codes ("UTC"), codes ("Mars/Olympus")]).2
    [codes ("UTC")] (codes ("Mars/Olympus")) [] rfl (by decide) hbad

/-- C3: with `diff` the remote minus local UTC-offset seconds (whole minutes,
as timezone offsets at a real instant are), the label is `"Local"` iff
`diff = 0`; for a nonzero whole number of hours it is the signed hour count
followed by `"h"`; otherwise it is the sign of `diff`, the hours of `|diff|`,
`"h"`, the minutes of `|diff|` zero-padded to two digits, and `"m"`. -/
theorem C3_offset_label_characterization (local_off remote_off : ℤ)
    (hdvd : (60 : ℤ) ∣ remote_off - local_off) :
    (get_offset_str local_off remote_off = codes ("Local") ↔
      remote_off - local_off = 0) ∧
    (∀ k : ℤ, remote_off - local_off = 3600 * k → k ≠ 0 →
      get_offset_str local_off remote_off = signedDec k ++ [104]) ∧
    (¬ ((3600 : ℤ) ∣ remote_off - local_off) →
      get_offset_str local_off remote_off =
        (if 0 ≤ remote_off - local_off then [43] else [45]) ++
          natToDec ((remote_off - local_off).natAbs / 3600) ++ [104] ++
          padZeros 2 (natToDec ((remote_off - local_off).natAbs % 3600 / 60)) ++ [109]) := by
  have hA : (60 : ℕ) ∣ (remote_off - local_off).natAbs :=
    Int.natAbs_dvd_natAbs.mpr hdvd
  have hL : codes ("Local") = [76, 111, 99, 97, 108] := rfl
  refine ⟨⟨?_, ?_⟩, ?_, ?_⟩
  · -- `"Local"` output forces diff = 0
    intro hEq
    simp only [get_offset_str] at hEq
    split_ifs at hEq
    all_goals
      first
        | omega
        | (unfold signedDec at hEq
           rw [hL] at hEq
           split_ifs at hEq <;> simp at hEq)
        | (rw [hL] at hEq
           simp at hEq)
  · -- diff = 0 gives `"Local"`
    intro h0
    simp only [get_offset_str, h0]
    norm_num
  · -- whole nonzero hours
    intro k hk hknz
    simp only [get_offset_str, hk]
    have hm0 : (3600 * k).natAbs % 3600 / 60 = 0 := by omega
    have hh : (if 0 ≤ 3600 * k then (((3600 * k).natAbs / 3600 : ℕ) : ℤ)
        else -(((3600 * k).natAbs / 3600 : ℕ) : ℤ)) = k := by
      split_ifs <;> omega
    rw [hm0, hh]
    rw [if_neg (by exact fun hc => hknz hc.1)]
    rw [if_pos rfl]
  · -- fractional hours
    intro hnd
    have hA36 : ¬ ((3600 : ℕ) ∣ (remote_off - local_off).natAbs) := by
      intro hc
      exact hnd (Int.natAbs_dvd_natAbs.mp hc)
    simp only [get_offset_str]
    have hm : (remote_off - local_off).natAbs % 3600 / 60 ≠ 0 := by omega
    rw [if_neg (by exact fun hc => hm hc.2)]
    rw [if_neg hm]
    have hhabs : (if 0 ≤ remote_off - local_off
        then (((remote_off - local_off).natAbs / 3600 : ℕ) : ℤ)
        else -(((remote_off - local_off).natAbs / 3600 : ℕ) : ℤ)).natAbs =
          (remote_off - local_off).natAbs / 3600 := by
      split_ifs <;> omega
    rw [hhabs]

/-- Witness for C3: local UTC, remote UTC+9:30 gives `"+9h30m"`. -/
theorem C3_offset_label_characterization_witness :
    (60 : ℤ) ∣ (34200 : ℤ) - 0 ∧ ¬ ((3600 : ℤ) ∣ (34200 : ℤ) - 0) ∧
    get_offset_str 0 34200 = codes ("+9h30m") := by
  refine ⟨by norm_num, by norm_num, ?_⟩
  have h := (C3_offset_label_characterization 0 34200 (by norm_num)).2.2 (by norm_num)
  rw [h]
  decide

/-- C6 counterexample: at offset 0.1 hours (6 minutes) the code's minutes-only
branch is NOT zero-padded — the label reads `"+6m from now"`, not the
`"+06m from now"` that two-digit-padded minutes would give. -/
theorem C6_slider_label_counterexample :
    format_slider_label 12 0 (1/10) = codes ("12:00 · +6m from now") ∧
    codes ("12:00 · +6m from now") ≠ codes ("12:00 · +06m from now") := by
  have h6 : pyRound ((1/10 : ℚ) * 60) = 6 := by norm_num [pyRound]
  refine ⟨?_, by decide⟩
  simp only [format_slider_label, h6]
  decide

/-- C6 (amended): the slider label is the target wall-clock `HH:MM` followed by
`" · Now"` when `round(Δ×60) = 0`; otherwise by `" · "`, then a relative part
built from the sign of the rounded minutes and only the non-zero of the
hour/minute components — with the minutes zero-padded to two digits only when
an hour part is also present (a standalone minutes component is unpadded) —
then `" from now"`; offset 0 includes `"· Now"`, offset 1.5 includes
`"+1h30m from now"`, offset -0.25 includes `"-15m from now"`. -/
theorem C6_slider_label_amended (targetHour targetMinute : ℕ) (off : ℚ) :
    (pyRound (off * 60) = 0 →
      format_slider_label targetHour targetMinute off =
        padZeros 2 (natToDec targetHour) ++ [58] ++ padZeros 2 (natToDec targetMinute) ++
          codes (" · Now")) ∧
    (pyRound (off * 60) ≠ 0 →
      format_slider_label targetHour targetMinute off =
        padZeros 2 (natToDec targetHour) ++ [58] ++ padZeros 2 (natToDec targetMinute) ++
          codes (" · ") ++
          ((if 0 < pyRound (off * 60) then [43] else [45]) ++
            (if (pyRound (off * 60)).natAbs / 60 ≠ 0 ∧ (pyRound (off * 60)).natAbs % 60 ≠ 0
             then natToDec ((pyRound (off * 60)).natAbs / 60) ++ [104] ++
               padZeros 2 (natToDec ((pyRound (off * 60)).natAbs % 60)) ++ [109]
             else if (pyRound (off * 60)).natAbs / 60 ≠ 0
             then natToDec ((pyRound (off * 60)).natAbs / 60) ++ [104]
             else natToDec ((pyRound (off * 60)).natAbs % 60) ++ [109])) ++
          codes (" from now")) ∧
    format_slider_label 12 0 (3/2) = codes ("12:00 · +1h30m from now") ∧
    format_slider_label 12 0 (-1/4) = codes ("12:00 · -15m from now") ∧
    format_slider_label 12 0 0 = codes ("12:00 · Now") := by
  refine ⟨?_, ?_, ?_, ?_, ?_⟩
  · intro h
    simp only [format_slider_label, h]
    rfl
  · intro h
    simp only [format_slider_label]
    rw [if_neg h]
    split_ifs <;> simp [List.append_assoc]
  · have h90 : pyRound ((3/2 : ℚ) * 60) = 90 := by norm_num [pyRound]
    simp only [format_slider_label, h90]
    decide
  · have h15 : pyRound ((-1/4 : ℚ) * 60) = -15 := by norm_num [pyRound]
    simp only [format_slider_label, h15]
    decide
  · have h0 : pyRound ((0 : ℚ) * 60) = 0 := by norm_num [pyRound]
    simp only [format_slider_label, h0]
    rfl

/-- Witness for the amended C6 at offset 1.5. -/
theorem C6_slider_label_amended_witness :
    pyRound ((3/2 : ℚ) * 60) ≠ 0 ∧
    format_slider_label 12 0 (3/2) = codes ("12:00 · +1h30m from now") := by
  have h90 : pyRound ((3/2 : ℚ) * 60) = 90 := by norm_num [pyRound]
  have hne : pyRound ((3/2 : ℚ) * 60) ≠ 0 := by
    rw [h90]
    norm_num
  refine ⟨hne, ?_⟩
  have h := (C6_slider_label_amended 12 0 (3/2)).2.1 hne
  rw [h, h90]
  decide

/-- C1: on the empty theme mapping `build_semantic_theme` returns exactly the
built-in fallback palette — background `#1a1b26`, foreground `#a9b1d6`, accent
`#7aa2f7`, cursor `#c0caf5`, red `#ef4444`, and the dim/surface/day/night
colors given by the documented blend formulas over those seeds with the
dark-theme ratios — classifies the theme as dark (the relative luminance of
`#1a1b26` is at most 0.46, so `is_light_theme` is false) with
`daylight_contrast = 1.6` and `daylight_gamma = 1.35`; and for every theme
mapping it totally produces a palette whose ten colors are all valid
normalized `#rrggbb` strings (the component never raises). -/
theorem C1_build_semantic_theme_empty_fallback :
    (build_semantic_theme []).bg = codes ("#1a1b26") ∧
    (build_semantic_theme []).fg = codes ("#a9b1d6") ∧
    (build_semantic_theme []).accent = codes ("#7aa2f7") ∧
    (build_semantic_theme []).cursor = codes ("#c0caf5") ∧
    (build_semantic_theme []).red = codes ("#ef4444") ∧
    (build_semantic_theme []).dim = mix_hex (codes ("#a9b1d6")) (codes ("#1a1b26")) 0.5 ∧
    (build_semantic_theme []).surface = mix_hex (codes ("#1a1b26")) (codes ("#a9b1d6")) 0.11 ∧
    (build_semantic_theme []).surface2 = mix_hex (codes ("#1a1b26")) (codes ("#a9b1d6")) 0.2 ∧
    (build_semantic_theme []).day = mix_hex (codes ("#7aa2f7")) (codes ("#ffffff")) 0.28 ∧
    (build_semantic_theme []).night = mix_hex (codes ("#1a1b26")) (codes ("#7aa2f7")) 0.34 ∧
    ¬ is_light_theme (codes ("#1a1b26")) ∧
    (build_semantic_theme []).daylight_contrast = 1.6 ∧
    (build_semantic_theme []).daylight_gamma = 1.35 ∧
    (∀ theme : ThemeMap,
      normalize_hex (build_semantic_theme theme).bg = some (build_semantic_theme theme).bg ∧
      normalize_hex (build_semantic_theme theme).fg = some (build_semantic_theme theme).fg ∧
      normalize_hex (build_semantic_theme theme).accent =
        some (build_semantic_theme theme).accent ∧
      normalize_hex (build_semantic_theme theme).cursor =
        some (build_semantic_theme theme).cursor ∧
      normalize_hex (build_semantic_theme theme).dim = some (build_semantic_theme theme).dim ∧
      normalize_hex (build_semantic_theme theme).surface =
        some (build_semantic_theme theme).surface ∧
      normalize_hex (build_semantic_theme theme).surface2 =
        some (build_semantic_theme theme).surface2 ∧
      normalize_hex (build_semantic_theme theme).day = some (build_semantic_theme theme).day ∧
      normalize_hex (build_semantic_theme theme).night =
        some (build_semantic_theme theme).night ∧
      normalize_hex (build_semantic_theme theme).red = some (build_semantic_theme theme).red) := by
  have hlight : ¬ is_light_theme (codes ("#1a1b26")) := not_is_light_1a1b26
  have hbg : pick_theme_color [] [codes ("background")] (codes ("#1a1b26")) =
      codes ("#1a1b26") := by decide
  have hfg : pick_theme_color []
      [codes ("foreground"), codes ("color15"), codes ("color7")] (codes ("#a9b1d6")) =
      codes ("#a9b1d6") := by decide
  have haccent : pick_theme_color []
      [codes ("accent"), codes ("color4"), codes ("color12"), codes ("selection_background")]
      (codes ("#7aa2f7")) = codes ("#7aa2f7") := by decide
  have hcursor : pick_theme_color []
      [codes ("cursor"), codes ("selection_foreground"), codes ("foreground")]
      (codes ("#c0caf5")) = codes ("#c0caf5") := by decide
  have hred : pick_theme_color [] [codes ("color1")] (codes ("#ef4444")) =
      codes ("#ef4444") := by decide
  have hdayseed : pick_theme_color []
      [codes ("color11"), codes ("color3"), codes ("accent")] (codes ("#7aa2f7")) =
      codes ("#7aa2f7") := by decide
  have hnightseed : pick_theme_color []
      [codes ("color4"), codes ("accent"), codes ("color12")] (codes ("#7aa2f7")) =
      codes ("#7aa2f7") := by decide
  refine ⟨?_, ?_, ?_, ?_, ?_, ?_, ?_, ?_, ?_, ?_, hlight, ?_, ?_, ?_⟩
  · simp only [build_semantic_theme]
    exact hbg
  · simp only [build_semantic_theme]
    exact hfg
  · simp only [build_semantic_theme]
    exact haccent
  · simp only [build_semantic_theme]
    exact hcursor
  · simp only [build_semantic_theme]
    exact hred
  · simp only [build_semantic_theme]
    rw [hbg, hfg, if_neg hlight]
  · simp only [build_semantic_theme]
    rw [hbg, hfg, if_neg hlight]
  · simp only [build_semantic_theme]
    rw [hbg, hfg, if_neg hlight]
  · simp only [build_semantic_theme]
    rw [hbg, haccent, hdayseed, if_neg hlight]
  · simp only [build_semantic_theme]
    rw [hbg, haccent, hnightseed, if_neg hlight]
  · simp only [build_semantic_theme]
    rw [hbg, if_neg hlight]
  · simp only [build_semantic_theme]
    rw [hbg, if_neg hlight]
  · intro theme
    simp only [build_semantic_theme]
    refine ⟨pick_theme_color_valid _ _ _, pick_theme_color_valid _ _ _,
      pick_theme_color_valid _ _ _, pick_theme_color_valid _ _ _, ?_, ?_, ?_, ?_, ?_,
      pick_theme_color_valid _ _ _⟩
    · exact mix_hex_valid (by split_ifs <;> norm_num) (by split_ifs <;> norm_num)
    · exact mix_hex_valid (by split_ifs <;> norm_num) (by split_ifs <;> norm_num)
    · exact mix_hex_valid (by split_ifs <;> norm_num) (by split_ifs <;> norm_num)
    · exact mix_hex_valid (by split_ifs <;> norm_num) (by split_ifs <;> norm_num)
    · exact mix_hex_valid (by split_ifs <;> norm_num) (by split_ifs <;> norm_num)
